import Mathlib

/-!
Verification of the biological-sequence core of the repository
(`src/Zad2.cpp`, with the simplified-translation variant
`src/ConsoleApplication5.cpp` embedded under the `CA5` namespace).

Strings are embedded as `List Char`; the C++ exceptions
(`std::invalid_argument`, `std::out_of_range`) become the `SeqError` sum,
returned through `Except`. A throwing constructor becomes a `mk...`
function returning `Except SeqError _`; an in-place mutation becomes a
function returning the updated record.
-/

/-- The two exception kinds the source throws, with their message strings. -/
inductive SeqError where
  | invalidArgument : String → SeqError
  | outOfRange : String → SeqError
deriving DecidableEq

/-- `class DNASequence` fields: `identifier`, `data`. -/
structure DNASequence where
  identifier : String
  data : List Char
deriving DecidableEq

/-- `class RNASequence` fields: `identifier`, `data`. -/
structure RNASequence where
  identifier : String
  data : List Char
deriving DecidableEq

/-- `class ProteinSequence` fields: `identifier`, `data`. -/
structure ProteinSequence where
  identifier : String
  data : List Char
deriving DecidableEq

/-- `DNASequence::VALID_CHARS = "ATCG"`. -/
def DNASequence.VALID_CHARS : List Char := ['A', 'T', 'C', 'G']

/-- `RNASequence::VALID_CHARS = "AUCG"`. -/
def RNASequence.VALID_CHARS : List Char := ['A', 'U', 'C', 'G']

/-- `ProteinSequence::VALID_CHARS = "ACDEFGHIKLMNPQRSTVWY"`. -/
def ProteinSequence.VALID_CHARS : List Char :=
  ['A', 'C', 'D', 'E', 'F', 'G', 'H', 'I', 'K', 'L', 'M', 'N', 'P', 'Q', 'R', 'S', 'T', 'V', 'W', 'Y']

/-- The constructors' validation loop: `for (char c : data) if
(VALID_CHARS.find(c) == string::npos) throw invalid_argument(msg);`.
`VALID_CHARS.find(c) != npos` is membership in the valid-character list. -/
def checkChars (valid : List Char) (msg : String) : List Char → Except SeqError Unit
  | [] => .ok ()
  | c :: rest =>
    if c ∈ valid then checkChars valid msg rest
    else .error (.invalidArgument msg)

/-- `DNASequence::DNASequence(id, seq)`: stores the fields after validating
every character of `seq` against `VALID_CHARS`. -/
def mkDNASequence (id : String) (seq : List Char) : Except SeqError DNASequence :=
  match checkChars DNASequence.VALID_CHARS "Nieprawidłowy znak w sekwencji DNA." seq with
  | .ok _ => .ok ⟨id, seq⟩
  | .error e => .error e

/-- `RNASequence::RNASequence(id, seq)`. -/
def mkRNASequence (id : String) (seq : List Char) : Except SeqError RNASequence :=
  match checkChars RNASequence.VALID_CHARS "Nieprawidłowy znak w sekwencji RNA." seq with
  | .ok _ => .ok ⟨id, seq⟩
  | .error e => .error e

/-- `ProteinSequence::ProteinSequence(id, seq)`. -/
def mkProteinSequence (id : String) (seq : List Char) : Except SeqError ProteinSequence :=
  match checkChars ProteinSequence.VALID_CHARS "Nieprawidłowy znak w sekwencji białka." seq with
  | .ok _ => .ok ⟨id, seq⟩
  | .error e => .error e

/-- The `switch` body of `DNASequence::complement`: `A→T, T→A, C→G, G→C`,
any other character left unchanged (the `switch` has no default case). -/
def dnaPairChar (c : Char) : Char :=
  match c with
  | 'A' => 'T'
  | 'T' => 'A'
  | 'C' => 'G'
  | 'G' => 'C'
  | _ => c

/-- The `switch` body of `RNASequence::complement`: `A→U, U→A, C→G, G→C`. -/
def rnaPairChar (c : Char) : Char :=
  match c with
  | 'A' => 'U'
  | 'U' => 'A'
  | 'C' => 'G'
  | 'G' => 'C'
  | _ => c

/-- `DNASequence::complement()`: copies `data` and rewrites each character
in place through the pairing `switch`; returns the resulting string. -/
def DNASequence.complement (s : DNASequence) : List Char :=
  s.data.map dnaPairChar

/-- `RNASequence::complement()`. -/
def RNASequence.complement (s : RNASequence) : List Char :=
  s.data.map rnaPairChar

/-- `DNASequence::mutate(position, value)`: bounds check
(`position < 0 || position >= data.length()`, `out_of_range`) before the
alphabet check (`invalid_argument`); on success `data[position] = value`. -/
def DNASequence.mutate (s : DNASequence) (position : Int) (value : Char) :
    Except SeqError DNASequence :=
  if position < 0 ∨ (s.data.length : Int) ≤ position then
    .error (.outOfRange "Pozycja poza zakresem.")
  else if value ∉ DNASequence.VALID_CHARS then
    .error (.invalidArgument "Nieprawidłowy znak mutacji.")
  else
    .ok ⟨s.identifier, s.data.set position.toNat value⟩

/-- `RNASequence::mutate(position, value)`. -/
def RNASequence.mutate (s : RNASequence) (position : Int) (value : Char) :
    Except SeqError RNASequence :=
  if position < 0 ∨ (s.data.length : Int) ≤ position then
    .error (.outOfRange "Pozycja poza zakresem.")
  else if value ∉ RNASequence.VALID_CHARS then
    .error (.invalidArgument "Nieprawidłowy znak mutacji.")
  else
    .ok ⟨s.identifier, s.data.set position.toNat value⟩

/-- `ProteinSequence::mutate(position, value)`. -/
def ProteinSequence.mutate (s : ProteinSequence) (position : Int) (value : Char) :
    Except SeqError ProteinSequence :=
  if position < 0 ∨ (s.data.length : Int) ≤ position then
    .error (.outOfRange "Pozycja poza zakresem.")
  else if value ∉ ProteinSequence.VALID_CHARS then
    .error (.invalidArgument "Nieprawidłowy znak mutacji.")
  else
    .ok ⟨s.identifier, s.data.set position.toNat value⟩

/-- `std::string::find(motif)` on the embedded strings: the least index at
which `pattern` is a prefix of the remaining suffix (`npos` becomes
`none`); the empty pattern matches at index 0, also on an empty string. -/
def findIdx (pattern : List Char) : List Char → Option Nat
  | [] => if pattern = [] then some 0 else none
  | c :: rest =>
    if pattern.isPrefixOf (c :: rest) then some 0
    else (findIdx pattern rest).map (· + 1)

/-- `DNASequence::findMotif(motif)`: `data.find(motif)` cast to `int`,
with `npos` mapped to `-1`. -/
def DNASequence.findMotif (s : DNASequence) (motif : List Char) : Int :=
  match findIdx motif s.data with
  | some n => Int.ofNat n
  | none => -1

/-- `RNASequence::findMotif(motif)`. -/
def RNASequence.findMotif (s : RNASequence) (motif : List Char) : Int :=
  match findIdx motif s.data with
  | some n => Int.ofNat n
  | none => -1

/-- `ProteinSequence::findMotif(motif)`. -/
def ProteinSequence.findMotif (s : ProteinSequence) (motif : List Char) : Int :=
  match findIdx motif s.data with
  | some n => Int.ofNat n
  | none => -1

/-- One iteration of the `DNASequence::transcribe` loop body: the `switch`
appends one character for `A`, `T`, `C`, `G` and nothing otherwise. -/
def dnaToRnaChunk (c : Char) : List Char :=
  match c with
  | 'A' => ['U']
  | 'T' => ['A']
  | 'C' => ['G']
  | 'G' => ['C']
  | _ => []

/-- The accumulation `rna += ...` over the whole `data` string. -/
def dnaToRnaData : List Char → List Char
  | [] => []
  | c :: rest => dnaToRnaChunk c ++ dnaToRnaData rest

/-- `DNASequence::transcribe()`: builds the substituted string and runs the
`RNASequence` constructor on `identifier + "_RNA"`. -/
def DNASequence.transcribe (s : DNASequence) : Except SeqError RNASequence :=
  mkRNASequence (s.identifier ++ "_RNA") (dnaToRnaData s.data)

/-- The 64-entry `codonTable` of `RNASequence::transcribe`, verbatim. -/
def codonTable : List (List Char × Char) := [
  (['U', 'U', 'U'], 'F'), (['U', 'U', 'C'], 'F'), (['U', 'U', 'A'], 'L'), (['U', 'U', 'G'], 'L'),
  (['C', 'U', 'U'], 'L'), (['C', 'U', 'C'], 'L'), (['C', 'U', 'A'], 'L'), (['C', 'U', 'G'], 'L'),
  (['A', 'U', 'U'], 'I'), (['A', 'U', 'C'], 'I'), (['A', 'U', 'A'], 'I'), (['A', 'U', 'G'], 'M'),
  (['G', 'U', 'U'], 'V'), (['G', 'U', 'C'], 'V'), (['G', 'U', 'A'], 'V'), (['G', 'U', 'G'], 'V'),
  (['U', 'C', 'U'], 'S'), (['U', 'C', 'C'], 'S'), (['U', 'C', 'A'], 'S'), (['U', 'C', 'G'], 'S'),
  (['C', 'C', 'U'], 'P'), (['C', 'C', 'C'], 'P'), (['C', 'C', 'A'], 'P'), (['C', 'C', 'G'], 'P'),
  (['A', 'C', 'U'], 'T'), (['A', 'C', 'C'], 'T'), (['A', 'C', 'A'], 'T'), (['A', 'C', 'G'], 'T'),
  (['G', 'C', 'U'], 'A'), (['G', 'C', 'C'], 'A'), (['G', 'C', 'A'], 'A'), (['G', 'C', 'G'], 'A'),
  (['U', 'A', 'U'], 'Y'), (['U', 'A', 'C'], 'Y'), (['U', 'A', 'A'], '*'), (['U', 'A', 'G'], '*'),
  (['C', 'A', 'U'], 'H'), (['C', 'A', 'C'], 'H'), (['C', 'A', 'A'], 'Q'), (['C', 'A', 'G'], 'Q'),
  (['A', 'A', 'U'], 'N'), (['A', 'A', 'C'], 'N'), (['A', 'A', 'A'], 'K'), (['A', 'A', 'G'], 'K'),
  (['G', 'A', 'U'], 'D'), (['G', 'A', 'C'], 'D'), (['G', 'A', 'A'], 'E'), (['G', 'A', 'G'], 'E'),
  (['U', 'G', 'U'], 'C'), (['U', 'G', 'C'], 'C'), (['U', 'G', 'A'], '*'), (['U', 'G', 'G'], 'W'),
  (['C', 'G', 'U'], 'R'), (['C', 'G', 'C'], 'R'), (['C', 'G', 'A'], 'R'), (['C', 'G', 'G'], 'R'),
  (['A', 'G', 'U'], 'S'), (['A', 'G', 'C'], 'S'), (['A', 'G', 'A'], 'R'), (['A', 'G', 'G'], 'R'),
  (['G', 'G', 'U'], 'G'), (['G', 'G', 'C'], 'G'), (['G', 'G', 'A'], 'G'), (['G', 'G', 'G'], 'G')]

/-- The translation loop of `RNASequence::transcribe`:
`for (size_t i = 0; i + 2 < data.length(); i += 3)` takes the next 3
characters, looks them up, `break`s on the stop marker, appends the
peptide letter otherwise, and appends `'X'` when the lookup misses. -/
def translateLoop : List Char → List Char
  | c1 :: c2 :: c3 :: rest =>
    match List.lookup [c1, c2, c3] codonTable with
    | some p => if p = '*' then [] else p :: translateLoop rest
    | none => 'X' :: translateLoop rest
  | _ => []

/-- `RNASequence::transcribe()`: runs the loop, then the `ProteinSequence`
constructor on `identifier + "_protein"`. -/
def RNASequence.transcribe (s : RNASequence) : Except SeqError ProteinSequence :=
  mkProteinSequence (s.identifier ++ "_protein") (translateLoop s.data)

/-- The same loop with the codon-not-found fallback removed: `none` when a
lookup misses. Used to state that the `'X'` branch is unreachable on valid
RNA input. -/
def translateStrict : List Char → Option (List Char)
  | c1 :: c2 :: c3 :: rest =>
    match List.lookup [c1, c2, c3] codonTable with
    | some p => if p = '*' then some [] else (translateStrict rest).map (p :: ·)
    | none => none
  | _ => some []

/-- The specification's translation state machine, as worded there: the
symbols are processed in windows of 3 from offset 0 stepping by 3; a window
mapping to a peptide letter appends it and scanning continues on the rest;
a window mapping to the stop marker transitions to the terminal Stopped
state, which contributes nothing ever after (rendered as returning `[]`);
an unknown window appends the placeholder; fewer than 3 remaining symbols
end processing, dropping the partial window. -/
def specMachine (data : List Char) : List Char :=
  if _h : data.length < 3 then []
  else
    match List.lookup (data.take 3) codonTable with
    | some p => if p = '*' then [] else p :: specMachine (data.drop 3)
    | none => 'X' :: specMachine (data.drop 3)
termination_by data.length
decreasing_by
  all_goals simp only [List.length_drop]; omega

namespace CA5

/-- `class RNASequence` of `src/ConsoleApplication5.cpp` (fields and
validation identical to `src/Zad2.cpp`). -/
structure RNASequence where
  identifier : String
  data : List Char
deriving DecidableEq

/-- `class ProteinSequence` of `src/ConsoleApplication5.cpp`. -/
structure ProteinSequence where
  identifier : String
  data : List Char
deriving DecidableEq

/-- `ProteinSequence::VALID_CHARS` of the variant, the same 20 letters. -/
def ProteinSequence.VALID_CHARS : List Char :=
  ['A', 'C', 'D', 'E', 'F', 'G', 'H', 'I', 'K', 'L', 'M', 'N', 'P', 'Q', 'R', 'S', 'T', 'V', 'W', 'Y']

/-- `ProteinSequence::ProteinSequence(id, seq)` of the variant. -/
def mkProteinSequence (id : String) (seq : List Char) : Except SeqError ProteinSequence :=
  match checkChars ProteinSequence.VALID_CHARS "Nieprawidłowy znak w sekwencji białka." seq with
  | .ok _ => .ok ⟨id, seq⟩
  | .error e => .error e

/-- The simplified translation loop of the variant's
`RNASequence::transcribe`: `for (size_t i = 0; i + 2 < data.length(); i += 3)
protein += 'X';`. -/
def translateLoop : List Char → List Char
  | _ :: _ :: _ :: rest => 'X' :: translateLoop rest
  | _ => []

/-- The variant's `RNASequence::transcribe()`: builds the all-`'X'` string
and runs the `ProteinSequence` constructor on `identifier + "_protein"`. -/
def RNASequence.transcribe (s : RNASequence) : Except SeqError ProteinSequence :=
  mkProteinSequence (s.identifier ++ "_protein") (translateLoop s.data)

end CA5

/-! ## Validation lemmas -/

theorem checkChars_eq_ok (valid : List Char) (msg : String) :
    ∀ seq : List Char, (∀ c ∈ seq, c ∈ valid) → checkChars valid msg seq = .ok ()
  | [], _ => rfl
  | c :: rest, h => by
      have hc : c ∈ valid := h c (List.mem_cons_self c rest)
      simp only [checkChars, if_pos hc]
      exact checkChars_eq_ok valid msg rest fun d hd => h d (List.mem_cons_of_mem c hd)

theorem checkChars_eq_error (valid : List Char) (msg : String) :
    ∀ seq : List Char, ¬ (∀ c ∈ seq, c ∈ valid) →
      checkChars valid msg seq = .error (.invalidArgument msg)
  | [], h => absurd (by simp) h
  | c :: rest, h => by
      by_cases hc : c ∈ valid
      · simp only [checkChars, if_pos hc]
        refine checkChars_eq_error valid msg rest fun hall => h ?_
        intro d hd
        rcases List.mem_cons.mp hd with rfl | hd
        · exact hc
        · exact hall d hd
      · simp only [checkChars, if_neg hc]

theorem valid_of_checkChars_ok (valid : List Char) (msg : String) :
    ∀ seq : List Char, checkChars valid msg seq = .ok () → ∀ c ∈ seq, c ∈ valid
  | [], _ => by simp
  | c :: rest, h => by
      by_cases hc : c ∈ valid
      · simp only [checkChars, if_pos hc] at h
        intro d hd
        rcases List.mem_cons.mp hd with rfl | hd
        · exact hc
        · exact valid_of_checkChars_ok valid msg rest h d hd
      · simp only [checkChars, if_neg hc] at h
        exact absurd h (by simp)

/-- C3 (amended): construction succeeds, storing identifier and symbols
unchanged, exactly when every symbol is in the DNA alphabet (the empty
string included); otherwise it fails with the constructor's one fixed
`invalid_argument` error, whose message does not name the offending
character or its position. -/
theorem dna_ctor_validation_spec (id : String) (seq : List Char) :
    (mkDNASequence id seq = .ok ⟨id, seq⟩ ↔ ∀ c ∈ seq, c ∈ DNASequence.VALID_CHARS)
    ∧ ((¬ ∀ c ∈ seq, c ∈ DNASequence.VALID_CHARS) →
        mkDNASequence id seq = .error (.invalidArgument "Nieprawidłowy znak w sekwencji DNA."))
    ∧ mkDNASequence id [] = .ok ⟨id, []⟩ := by
  by_cases hv : ∀ c ∈ seq, c ∈ DNASequence.VALID_CHARS
  · have hok : mkDNASequence id seq = .ok ⟨id, seq⟩ := by
      unfold mkDNASequence
      rw [checkChars_eq_ok _ _ _ hv]
    exact ⟨⟨fun _ => hv, fun _ => hok⟩, fun hcon => absurd hv hcon, rfl⟩
  · have herr : mkDNASequence id seq =
        .error (.invalidArgument "Nieprawidłowy znak w sekwencji DNA.") := by
      unfold mkDNASequence
      rw [checkChars_eq_error _ _ _ hv]
    refine ⟨⟨fun hok => ?_, fun hv2 => absurd hv2 hv⟩, fun _ => herr, rfl⟩
    rw [herr] at hok
    exact absurd hok (by simp)

/-- C3 counterexample: the constructor's error is one fixed message. The
input whose only offending character is `X` at position 0 and the input
whose only offending character is `Y` at position 2 yield identical
errors, so the error names neither the offending character nor its
position. -/
theorem dna_ctor_error_uninformative :
    mkDNASequence "seq1" ['X'] =
      .error (.invalidArgument "Nieprawidłowy znak w sekwencji DNA.")
    ∧ mkDNASequence "seq1" ['A', 'A', 'Y'] =
      .error (.invalidArgument "Nieprawidłowy znak w sekwencji DNA.")
    ∧ mkDNASequence "seq1" ['X'] = mkDNASequence "seq1" ['A', 'A', 'Y'] :=
  ⟨rfl, rfl, rfl⟩

/-! ## Mutation -/

/-- C6: a mutation position that is negative or at least the length fails
with the `out_of_range` error, whatever the replacement symbol (the bounds
check precedes the alphabet check), and the functional embedding returns
no modified sequence; the same holds for RNA and protein sequences. -/
theorem mutate_out_of_range_spec (d : DNASequence) (p : Int) (v : Char)
    (h : p < 0 ∨ (d.data.length : Int) ≤ p) :
    d.mutate p v = .error (.outOfRange "Pozycja poza zakresem.")
    ∧ (∀ r : RNASequence, p < 0 ∨ (r.data.length : Int) ≤ p →
        r.mutate p v = .error (.outOfRange "Pozycja poza zakresem."))
    ∧ (∀ q : ProteinSequence, p < 0 ∨ (q.data.length : Int) ≤ p →
        q.mutate p v = .error (.outOfRange "Pozycja poza zakresem.")) := by
  refine ⟨?_, fun r hr => ?_, fun q hq => ?_⟩
  · unfold DNASequence.mutate
    rw [if_pos h]
  · unfold RNASequence.mutate
    rw [if_pos hr]
  · unfold ProteinSequence.mutate
    rw [if_pos hq]

/-- C6 witness: position 99 on the 6-character demo sequence, with a
replacement symbol that is itself outside the alphabet, still reports
`out_of_range`. -/
theorem mutate_out_of_range_spec_app :
    (DNASequence.mk "seq1" ['T', 'A', 'C', 'G', 'G', 'A']).mutate 99 'Z'
        = .error (.outOfRange "Pozycja poza zakresem.")
    ∧ (∀ r : RNASequence, (99 : Int) < 0 ∨ (r.data.length : Int) ≤ 99 →
        r.mutate 99 'Z' = .error (.outOfRange "Pozycja poza zakresem."))
    ∧ (∀ q : ProteinSequence, (99 : Int) < 0 ∨ (q.data.length : Int) ≤ 99 →
        q.mutate 99 'Z' = .error (.outOfRange "Pozycja poza zakresem.")) :=
  mutate_out_of_range_spec ⟨"seq1", ['T', 'A', 'C', 'G', 'G', 'A']⟩ 99 'Z' (by decide)

theorem set_frame (l : List Char) (n : Nat) (v : Char) (hn : n < l.length) :
    (l.set n v).length = l.length
    ∧ (l.set n v)[n]? = some v
    ∧ ∀ j : Nat, j ≠ n → (l.set n v)[j]? = l[j]? :=
  ⟨List.length_set .., List.getElem?_set_eq_of_lt v hn,
    fun _ hj => List.getElem?_set_ne (Ne.symm hj)⟩

/-- C7: an in-bounds mutation with a symbol of the bound alphabet
overwrites exactly the addressed position: the identifier is kept, the
length is kept, position `p` holds the new symbol, and every other
position is unchanged — for DNA, RNA and protein sequences alike. -/
theorem mutate_in_range_frame (d : DNASequence) (p : Int) (v : Char)
    (h : 0 ≤ p ∧ p < (d.data.length : Int) ∧ v ∈ DNASequence.VALID_CHARS) :
    (d.mutate p v = .ok ⟨d.identifier, d.data.set p.toNat v⟩
      ∧ (d.data.set p.toNat v).length = d.data.length
      ∧ (d.data.set p.toNat v)[p.toNat]? = some v
      ∧ ∀ j : Nat, j ≠ p.toNat → (d.data.set p.toNat v)[j]? = d.data[j]?)
    ∧ (∀ (r : RNASequence) (q : Int) (w : Char),
        0 ≤ q ∧ q < (r.data.length : Int) ∧ w ∈ RNASequence.VALID_CHARS →
          r.mutate q w = .ok ⟨r.identifier, r.data.set q.toNat w⟩
          ∧ (r.data.set q.toNat w).length = r.data.length
          ∧ (r.data.set q.toNat w)[q.toNat]? = some w
          ∧ ∀ j : Nat, j ≠ q.toNat → (r.data.set q.toNat w)[j]? = r.data[j]?)
    ∧ (∀ (t : ProteinSequence) (q : Int) (w : Char),
        0 ≤ q ∧ q < (t.data.length : Int) ∧ w ∈ ProteinSequence.VALID_CHARS →
          t.mutate q w = .ok ⟨t.identifier, t.data.set q.toNat w⟩
          ∧ (t.data.set q.toNat w).length = t.data.length
          ∧ (t.data.set q.toNat w)[q.toNat]? = some w
          ∧ ∀ j : Nat, j ≠ q.toNat → (t.data.set q.toNat w)[j]? = t.data[j]?) := by
  refine ⟨?_, fun r q w hr => ?_, fun t q w ht => ?_⟩
  · obtain ⟨h0, hlt, hv⟩ := h
    have hnot : ¬ (p < 0 ∨ (d.data.length : Int) ≤ p) := by omega
    have hplt : p.toNat < d.data.length := by omega
    obtain ⟨hl, he, hf⟩ := set_frame d.data p.toNat v hplt
    refine ⟨?_, hl, he, hf⟩
    unfold DNASequence.mutate
    rw [if_neg hnot, if_neg (not_not_intro hv)]
  · obtain ⟨h0, hlt, hv⟩ := hr
    have hnot : ¬ (q < 0 ∨ (r.data.length : Int) ≤ q) := by omega
    have hplt : q.toNat < r.data.length := by omega
    obtain ⟨hl, he, hf⟩ := set_frame r.data q.toNat w hplt
    refine ⟨?_, hl, he, hf⟩
    unfold RNASequence.mutate
    rw [if_neg hnot, if_neg (not_not_intro hv)]
  · obtain ⟨h0, hlt, hv⟩ := ht
    have hnot : ¬ (q < 0 ∨ (t.data.length : Int) ≤ q) := by omega
    have hplt : q.toNat < t.data.length := by omega
    obtain ⟨hl, he, hf⟩ := set_frame t.data q.toNat w hplt
    refine ⟨?_, hl, he, hf⟩
    unfold ProteinSequence.mutate
    rw [if_neg hnot, if_neg (not_not_intro hv)]

/-- C7 witness: the demo mutation `dna.mutate(0, 'A')` on `"TACGGA"`,
with the RNA and protein statements instantiated alongside. -/
theorem mutate_in_range_frame_app :
    ((DNASequence.mk "seq1" ['T', 'A', 'C', 'G', 'G', 'A']).mutate 0 'A'
        = .ok ⟨"seq1", (['T', 'A', 'C', 'G', 'G', 'A'] : List Char).set ((0 : Int).toNat) 'A'⟩
      ∧ ((['T', 'A', 'C', 'G', 'G', 'A'] : List Char).set ((0 : Int).toNat) 'A').length
        = (['T', 'A', 'C', 'G', 'G', 'A'] : List Char).length
      ∧ ((['T', 'A', 'C', 'G', 'G', 'A'] : List Char).set ((0 : Int).toNat) 'A')[(0 : Int).toNat]?
        = some 'A'
      ∧ ∀ j : Nat, j ≠ (0 : Int).toNat →
          ((['T', 'A', 'C', 'G', 'G', 'A'] : List Char).set ((0 : Int).toNat) 'A')[j]?
            = (['T', 'A', 'C', 'G', 'G', 'A'] : List Char)[j]?)
    ∧ (∀ (r : RNASequence) (q : Int) (w : Char),
        0 ≤ q ∧ q < (r.data.length : Int) ∧ w ∈ RNASequence.VALID_CHARS →
          r.mutate q w = .ok ⟨r.identifier, r.data.set q.toNat w⟩
          ∧ (r.data.set q.toNat w).length = r.data.length
          ∧ (r.data.set q.toNat w)[q.toNat]? = some w
          ∧ ∀ j : Nat, j ≠ q.toNat → (r.data.set q.toNat w)[j]? = r.data[j]?)
    ∧ (∀ (t : ProteinSequence) (q : Int) (w : Char),
        0 ≤ q ∧ q < (t.data.length : Int) ∧ w ∈ ProteinSequence.VALID_CHARS →
          t.mutate q w = .ok ⟨t.identifier, t.data.set q.toNat w⟩
          ∧ (t.data.set q.toNat w).length = t.data.length
          ∧ (t.data.set q.toNat w)[q.toNat]? = some w
          ∧ ∀ j : Nat, j ≠ q.toNat → (t.data.set q.toNat w)[j]? = t.data[j]?) :=
  mutate_in_range_frame ⟨"seq1", ['T', 'A', 'C', 'G', 'G', 'A']⟩ 0 'A' (by decide)

/-! ## Complementation -/

theorem dnaPairChar_invol :
    ∀ c ∈ DNASequence.VALID_CHARS, dnaPairChar (dnaPairChar c) = c := by decide

theorem rnaPairChar_invol :
    ∀ c ∈ RNASequence.VALID_CHARS, rnaPairChar (rnaPairChar c) = c := by decide

theorem map_dnaPairChar_invol :
    ∀ l : List Char, (∀ c ∈ l, c ∈ DNASequence.VALID_CHARS) →
      (l.map dnaPairChar).map dnaPairChar = l
  | [], _ => rfl
  | c :: rest, h => by
      simp only [List.map_cons, dnaPairChar_invol c (h c (List.mem_cons_self c rest))]
      rw [map_dnaPairChar_invol rest fun d hd => h d (List.mem_cons_of_mem c hd)]

theorem map_rnaPairChar_invol :
    ∀ l : List Char, (∀ c ∈ l, c ∈ RNASequence.VALID_CHARS) →
      (l.map rnaPairChar).map rnaPairChar = l
  | [], _ => rfl
  | c :: rest, h => by
      simp only [List.map_cons, rnaPairChar_invol c (h c (List.mem_cons_self c rest))]
      rw [map_rnaPairChar_invol rest fun d hd => h d (List.mem_cons_of_mem c hd)]

/-- C4: on validly-constructed sequences the pairing map is its own
inverse, so complementing the complement restores the original symbols,
for DNA and for RNA. -/
theorem complement_involutive (d : DNASequence) (r : RNASequence)
    (hd : ∀ c ∈ d.data, c ∈ DNASequence.VALID_CHARS)
    (hr : ∀ c ∈ r.data, c ∈ RNASequence.VALID_CHARS) :
    (DNASequence.mk d.identifier d.complement).complement = d.data
    ∧ (RNASequence.mk r.identifier r.complement).complement = r.data := by
  constructor
  · show (d.data.map dnaPairChar).map dnaPairChar = d.data
    exact map_dnaPairChar_invol d.data hd
  · show (r.data.map rnaPairChar).map rnaPairChar = r.data
    exact map_rnaPairChar_invol r.data hr

/-- C4 witness: the demo DNA sequence and a small RNA sequence. -/
theorem complement_involutive_app :
    (DNASequence.mk "seq1"
        ((DNASequence.mk "seq1"
          ['T', 'A', 'C', 'G', 'G', 'C', 'A', 'T', 'T', 'G', 'A', 'A']).complement)).complement
      = ['T', 'A', 'C', 'G', 'G', 'C', 'A', 'T', 'T', 'G', 'A', 'A']
    ∧ (RNASequence.mk "r"
        ((RNASequence.mk "r" ['A', 'U', 'G', 'C']).complement)).complement
      = ['A', 'U', 'G', 'C'] :=
  complement_involutive
    ⟨"seq1", ['T', 'A', 'C', 'G', 'G', 'C', 'A', 'T', 'T', 'G', 'A', 'A']⟩
    ⟨"r", ['A', 'U', 'G', 'C']⟩ (by decide) (by decide)

/-- C5: complementation preserves the length and substitutes positionally
through the base-pairing table, with no reversal; DNA pairs A↔T, C↔G, RNA
pairs A↔U, C↔G; the demo sequence complements as the spec states. -/
theorem complement_pointwise_spec (d : DNASequence)
    (_h : ∀ c ∈ d.data, c ∈ DNASequence.VALID_CHARS) :
    d.complement.length = d.data.length
    ∧ (∀ i : Nat, d.complement[i]? = (d.data[i]?).map dnaPairChar)
    ∧ (dnaPairChar 'A' = 'T' ∧ dnaPairChar 'T' = 'A'
        ∧ dnaPairChar 'C' = 'G' ∧ dnaPairChar 'G' = 'C')
    ∧ (∀ r : RNASequence, r.complement.length = r.data.length
        ∧ ∀ i : Nat, r.complement[i]? = (r.data[i]?).map rnaPairChar)
    ∧ (rnaPairChar 'A' = 'U' ∧ rnaPairChar 'U' = 'A'
        ∧ rnaPairChar 'C' = 'G' ∧ rnaPairChar 'G' = 'C')
    ∧ (DNASequence.mk "seq1"
        ['T', 'A', 'C', 'G', 'G', 'C', 'A', 'T', 'T', 'G', 'A', 'A']).complement
      = ['A', 'T', 'G', 'C', 'C', 'G', 'T', 'A', 'A', 'C', 'T', 'T'] := by
  refine ⟨List.length_map .., fun i => List.getElem?_map .., by decide,
    fun r => ⟨List.length_map .., fun i => List.getElem?_map ..⟩, by decide, by decide⟩

/-- C5 witness: the demo sequence `"TACGGCATTGAA"`. -/
theorem complement_pointwise_spec_app :
    (DNASequence.mk "seq1"
        ['T', 'A', 'C', 'G', 'G', 'C', 'A', 'T', 'T', 'G', 'A', 'A']).complement.length
      = (['T', 'A', 'C', 'G', 'G', 'C', 'A', 'T', 'T', 'G', 'A', 'A'] : List Char).length
    ∧ (∀ i : Nat,
        (DNASequence.mk "seq1"
          ['T', 'A', 'C', 'G', 'G', 'C', 'A', 'T', 'T', 'G', 'A', 'A']).complement[i]?
        = ((['T', 'A', 'C', 'G', 'G', 'C', 'A', 'T', 'T', 'G', 'A', 'A'] : List Char)[i]?).map
            dnaPairChar)
    ∧ (dnaPairChar 'A' = 'T' ∧ dnaPairChar 'T' = 'A'
        ∧ dnaPairChar 'C' = 'G' ∧ dnaPairChar 'G' = 'C')
    ∧ (∀ r : RNASequence, r.complement.length = r.data.length
        ∧ ∀ i : Nat, r.complement[i]? = (r.data[i]?).map rnaPairChar)
    ∧ (rnaPairChar 'A' = 'U' ∧ rnaPairChar 'U' = 'A'
        ∧ rnaPairChar 'C' = 'G' ∧ rnaPairChar 'G' = 'C')
    ∧ (DNASequence.mk "seq1"
        ['T', 'A', 'C', 'G', 'G', 'C', 'A', 'T', 'T', 'G', 'A', 'A']).complement
      = ['A', 'T', 'G', 'C', 'C', 'G', 'T', 'A', 'A', 'C', 'T', 'T'] :=
  complement_pointwise_spec
    ⟨"seq1", ['T', 'A', 'C', 'G', 'G', 'C', 'A', 'T', 'T', 'G', 'A', 'A']⟩ (by decide)

/-! ## Transcription DNA → RNA -/

/-- The substitution the specification fixes for transcription:
A→U, T→A, C→G, G→C, as a total character map. -/
def dnaRnaSub (c : Char) : Char :=
  match c with
  | 'A' => 'U'
  | 'T' => 'A'
  | 'C' => 'G'
  | 'G' => 'C'
  | _ => c

theorem dnaToRnaChunk_eq :
    ∀ c ∈ DNASequence.VALID_CHARS, dnaToRnaChunk c = [dnaRnaSub c] := by decide

theorem dnaRnaSub_mem :
    ∀ c ∈ DNASequence.VALID_CHARS, dnaRnaSub c ∈ RNASequence.VALID_CHARS := by decide

theorem dnaToRnaData_eq_map :
    ∀ l : List Char, (∀ c ∈ l, c ∈ DNASequence.VALID_CHARS) →
      dnaToRnaData l = l.map dnaRnaSub
  | [], _ => rfl
  | c :: rest, h => by
      simp only [dnaToRnaData, List.map_cons,
        dnaToRnaChunk_eq c (h c (List.mem_cons_self c rest))]
      rw [dnaToRnaData_eq_map rest fun d hd => h d (List.mem_cons_of_mem c hd)]
      rfl

/-- C2: transcription of a validly-constructed DNA sequence succeeds,
keeps the length, substitutes each position through the fixed table
A→U, T→A, C→G, G→C, and names the result with the `_RNA` suffix; the demo
input `"TACGGA"` becomes `"AUGCCU"`. -/
theorem dna_transcription_spec (d : DNASequence)
    (h : ∀ c ∈ d.data, c ∈ DNASequence.VALID_CHARS) :
    d.transcribe = .ok ⟨d.identifier ++ "_RNA", d.data.map dnaRnaSub⟩
    ∧ (d.data.map dnaRnaSub).length = d.data.length
    ∧ (∀ i : Nat, (d.data.map dnaRnaSub)[i]? = (d.data[i]?).map dnaRnaSub)
    ∧ dnaToRnaData ['T', 'A', 'C', 'G', 'G', 'A'] = ['A', 'U', 'G', 'C', 'C', 'U'] := by
  refine ⟨?_, List.length_map .., fun i => List.getElem?_map .., by decide⟩
  have hvalid : ∀ c ∈ d.data.map dnaRnaSub, c ∈ RNASequence.VALID_CHARS := by
    intro c hc
    obtain ⟨a, ha, rfl⟩ := List.mem_map.mp hc
    exact dnaRnaSub_mem a (h a ha)
  unfold DNASequence.transcribe mkRNASequence
  rw [dnaToRnaData_eq_map d.data h, checkChars_eq_ok _ _ _ hvalid]

/-- C2 witness: the demo DNA sequence `"TACGGA"`. -/
theorem dna_transcription_spec_app :
    (DNASequence.mk "seq1" ['T', 'A', 'C', 'G', 'G', 'A']).transcribe
      = .ok ⟨"seq1" ++ "_RNA", (['T', 'A', 'C', 'G', 'G', 'A'] : List Char).map dnaRnaSub⟩
    ∧ ((['T', 'A', 'C', 'G', 'G', 'A'] : List Char).map dnaRnaSub).length
      = (['T', 'A', 'C', 'G', 'G', 'A'] : List Char).length
    ∧ (∀ i : Nat, ((['T', 'A', 'C', 'G', 'G', 'A'] : List Char).map dnaRnaSub)[i]?
        = ((['T', 'A', 'C', 'G', 'G', 'A'] : List Char)[i]?).map dnaRnaSub)
    ∧ dnaToRnaData ['T', 'A', 'C', 'G', 'G', 'A'] = ['A', 'U', 'G', 'C', 'C', 'U'] :=
  dna_transcription_spec ⟨"seq1", ['T', 'A', 'C', 'G', 'G', 'A']⟩ (by decide)

/-! ## Motif search -/

/-- `pattern` occurs as a contiguous substring of `data` at start index `i`. -/
def occursAt (pattern data : List Char) (i : Nat) : Prop :=
  (data.drop i).take pattern.length = pattern

instance (pattern data : List Char) (i : Nat) : Decidable (occursAt pattern data i) :=
  inferInstanceAs (Decidable ((data.drop i).take pattern.length = pattern))

theorem occursAt_zero_iff (p l : List Char) : occursAt p l 0 ↔ p.isPrefixOf l := by
  unfold occursAt
  rw [List.drop_zero, List.isPrefixOf_iff_prefix, List.prefix_iff_eq_take]
  exact eq_comm

theorem occursAt_succ (p : List Char) (c : Char) (l : List Char) (i : Nat) :
    occursAt p (c :: l) (i + 1) ↔ occursAt p l i := by
  unfold occursAt
  rw [List.drop_succ_cons]

theorem findIdx_some_occursAt (p : List Char) :
    ∀ (l : List Char) (n : Nat), findIdx p l = some n → occursAt p l n
  | [], n, h => by
      unfold findIdx at h
      split at h
      · next hp =>
          cases h
          subst hp
          rfl
      · exact absurd h (by simp)
  | c :: rest, n, h => by
      unfold findIdx at h
      split at h
      · next hpre =>
          cases h
          exact (occursAt_zero_iff p (c :: rest)).mpr hpre
      · next hpre =>
          cases hm : findIdx p rest with
          | none => rw [hm] at h; simp at h
          | some m =>
              rw [hm] at h
              simp only [Option.map_some'] at h
              cases h
              exact (occursAt_succ p c rest m).mpr (findIdx_some_occursAt p rest m hm)

theorem findIdx_some_least (p : List Char) :
    ∀ (l : List Char) (n : Nat), findIdx p l = some n → ∀ m : Nat, m < n → ¬ occursAt p l m
  | [], n, h => by
      unfold findIdx at h
      split at h
      · cases h
        intro m hm
        omega
      · exact absurd h (by simp)
  | c :: rest, n, h => by
      unfold findIdx at h
      split at h
      · cases h
        intro m hm
        omega
      · next hpre =>
          cases hm' : findIdx p rest with
          | none => rw [hm'] at h; simp at h
          | some k =>
              rw [hm'] at h
              simp only [Option.map_some'] at h
              cases h
              intro m hmk
              match m with
              | 0 =>
                  rw [occursAt_zero_iff]
                  exact hpre
              | Nat.succ m' =>
                  rw [occursAt_succ]
                  exact findIdx_some_least p rest k hm' m' (by omega)

theorem findIdx_none_not_occursAt (p : List Char) :
    ∀ l : List Char, findIdx p l = none → ∀ i : Nat, ¬ occursAt p l i
  | [], h => by
      unfold findIdx at h
      split at h
      · simp at h
      · next hp =>
          intro i hocc
          unfold occursAt at hocc
          rw [List.drop_nil, List.take_nil] at hocc
          exact hp hocc.symm
  | c :: rest, h => by
      unfold findIdx at h
      split at h
      · simp at h
      · next hpre =>
          have hrest : findIdx p rest = none := by
            cases hm : findIdx p rest with
            | none => rfl
            | some k => rw [hm] at h; simp at h
          intro i
          match i with
          | 0 =>
              rw [occursAt_zero_iff]
              exact hpre
          | Nat.succ i' =>
              rw [occursAt_succ]
              exact findIdx_none_not_occursAt p rest hrest i'

theorem findIdx_nil_pattern : ∀ l : List Char, findIdx [] l = some 0
  | [] => rfl
  | c :: rest => by
      unfold findIdx
      rw [if_pos]
      simp [List.isPrefixOf]

theorem occursAt_exists_iff_substring (p d : List Char) :
    (∃ i : Nat, occursAt p d i) ↔ p <:+: d := by
  constructor
  · rintro ⟨i, hi⟩
    unfold occursAt at hi
    have hpre : p <+: d.drop i := List.prefix_iff_eq_take.mpr hi.symm
    obtain ⟨t, ht⟩ := hpre
    exact ⟨d.take i, t, by rw [List.append_assoc, ht, List.take_append_drop]⟩
  · rintro ⟨s, t, rfl⟩
    refine ⟨s.length, ?_⟩
    unfold occursAt
    rw [List.append_assoc, List.drop_left, List.take_left]

theorem findMotif_def_some (s : DNASequence) (pattern : List Char) (m : Nat)
    (hf : findIdx pattern s.data = some m) : s.findMotif pattern = Int.ofNat m := by
  unfold DNASequence.findMotif
  rw [hf]

theorem findMotif_def_none (s : DNASequence) (pattern : List Char)
    (hf : findIdx pattern s.data = none) : s.findMotif pattern = -1 := by
  unfold DNASequence.findMotif
  rw [hf]

/-- C8: motif search never fails: it returns `0` for the empty pattern
(also on an empty sequence), `-1` exactly when the pattern is not a
contiguous substring, and otherwise the smallest 0-based start index of an
occurrence; the RNA and protein searches are the same computation on
their own symbols. -/
theorem findMotif_spec (s : DNASequence) (pattern : List Char) :
    s.findMotif [] = 0
    ∧ (s.findMotif pattern = -1 ↔ ¬ pattern <:+: s.data)
    ∧ (∀ n : Nat, s.findMotif pattern = Int.ofNat n →
        occursAt pattern s.data n ∧ ∀ m : Nat, m < n → ¬ occursAt pattern s.data m)
    ∧ (∀ r : RNASequence, r.findMotif pattern
        = (DNASequence.mk r.identifier r.data).findMotif pattern)
    ∧ (∀ q : ProteinSequence, q.findMotif pattern
        = (DNASequence.mk q.identifier q.data).findMotif pattern) := by
  refine ⟨?_, ?_, ?_, fun r => rfl, fun q => rfl⟩
  · rw [findMotif_def_some s [] 0 (findIdx_nil_pattern s.data)]
    decide
  · cases hf : findIdx pattern s.data with
    | none =>
        rw [findMotif_def_none s pattern hf]
        refine iff_of_true rfl fun hinf => ?_
        obtain ⟨i, hi⟩ := (occursAt_exists_iff_substring pattern s.data).mpr hinf
        exact findIdx_none_not_occursAt pattern s.data hf i hi
    | some m =>
        rw [findMotif_def_some s pattern m hf]
        have hocc : pattern <:+: s.data :=
          (occursAt_exists_iff_substring pattern s.data).mp
            ⟨m, findIdx_some_occursAt pattern s.data m hf⟩
        refine iff_of_false (fun hx => ?_) (not_not_intro hocc)
        rw [Int.ofNat_eq_coe] at hx
        omega
  · intro n hn
    cases hf : findIdx pattern s.data with
    | none =>
        rw [findMotif_def_none s pattern hf] at hn
        rw [Int.ofNat_eq_coe] at hn
        exact absurd hn (by omega)
    | some m =>
        rw [findMotif_def_some s pattern m hf] at hn
        have hmn : m = n := Int.ofNat.inj hn
        subst hmn
        exact ⟨findIdx_some_occursAt pattern s.data m hf,
          findIdx_some_least pattern s.data m hf⟩

/-! ## Translation RNA → peptide -/

/-- Whether a codon looks up to the stop marker or a letter of the
peptide alphabet. -/
def codonGood (c1 c2 c3 : Char) : Bool :=
  match List.lookup [c1, c2, c3] codonTable with
  | some p => p == '*' || decide (p ∈ ProteinSequence.VALID_CHARS)
  | none => false

theorem codonGood_all :
    ∀ c1 ∈ RNASequence.VALID_CHARS, ∀ c2 ∈ RNASequence.VALID_CHARS,
      ∀ c3 ∈ RNASequence.VALID_CHARS, codonGood c1 c2 c3 = true := by decide

theorem codonTable_isSome :
    ∀ c1 ∈ RNASequence.VALID_CHARS, ∀ c2 ∈ RNASequence.VALID_CHARS,
      ∀ c3 ∈ RNASequence.VALID_CHARS,
        (List.lookup [c1, c2, c3] codonTable).isSome = true := by decide

theorem translateLoop_valid :
    ∀ data : List Char, (∀ c ∈ data, c ∈ RNASequence.VALID_CHARS) →
      ∀ c ∈ translateLoop data, c ∈ ProteinSequence.VALID_CHARS
  | [], _ => by simp [translateLoop]
  | [c1], _ => by simp [translateLoop]
  | [c1, c2], _ => by simp [translateLoop]
  | c1 :: c2 :: c3 :: rest, h => by
      have h1 := h c1 (by simp)
      have h2 := h c2 (by simp)
      have h3 := h c3 (by simp)
      have hrest : ∀ c ∈ rest, c ∈ RNASequence.VALID_CHARS := fun c hc => h c (by simp [hc])
      have hg := codonGood_all c1 h1 c2 h2 c3 h3
      unfold codonGood at hg
      unfold translateLoop
      cases hl : List.lookup [c1, c2, c3] codonTable with
      | none =>
          rw [hl] at hg
          simp at hg
      | some p =>
          rw [hl] at hg
          simp only [Bool.or_eq_true, beq_iff_eq, decide_eq_true_eq] at hg
          by_cases hp : p = '*'
          · simp [hp]
          · rcases hg with hg | hg
            · exact absurd hg hp
            · simp only [if_neg hp]
              intro c hc
              rcases List.mem_cons.mp hc with rfl | hc
              · exact hg
              · exact translateLoop_valid rest hrest c hc

theorem translateLoop_eq_specMachine :
    ∀ data : List Char, translateLoop data = specMachine data
  | [] => by
      unfold specMachine
      simp [translateLoop]
  | [c1] => by
      unfold specMachine
      simp [translateLoop]
  | [c1, c2] => by
      unfold specMachine
      simp [translateLoop]
  | c1 :: c2 :: c3 :: rest => by
      have ih := translateLoop_eq_specMachine rest
      have hlen : ¬ ((c1 :: c2 :: c3 :: rest).length < 3) := by
        simp only [List.length_cons]
        omega
      have htake : (c1 :: c2 :: c3 :: rest).take 3 = [c1, c2, c3] := rfl
      have hdrop : (c1 :: c2 :: c3 :: rest).drop 3 = rest := rfl
      unfold specMachine
      rw [dif_neg hlen]
      simp only [htake, hdrop]
      unfold translateLoop
      cases hl : List.lookup [c1, c2, c3] codonTable with
      | none => rw [ih]
      | some p =>
          by_cases hp : p = '*'
          · simp [hp]
          · simp [hp, ih]

/-- C1: translation of a validly-constructed RNA sequence succeeds,
names the result with the `_protein` suffix, and its peptide string is
exactly the specification's window-of-3 state machine over the symbols
(windows step by 3 from offset 0, the first stop-marker window ends
output permanently, a trailing partial window is dropped); codon `AUG`
maps to `M`, and `"AUGUUUUAA"` translates to `"MF"`. -/
theorem rna_translation_spec (r : RNASequence)
    (h : ∀ c ∈ r.data, c ∈ RNASequence.VALID_CHARS) :
    r.transcribe = .ok ⟨r.identifier ++ "_protein", specMachine r.data⟩
    ∧ List.lookup ['A', 'U', 'G'] codonTable = some 'M'
    ∧ translateLoop ['A', 'U', 'G', 'U', 'U', 'U', 'U', 'A', 'A'] = ['M', 'F'] := by
  refine ⟨?_, by decide, by decide⟩
  unfold RNASequence.transcribe mkProteinSequence
  rw [checkChars_eq_ok _ _ _ (translateLoop_valid r.data h)]
  rw [translateLoop_eq_specMachine r.data]

/-- C1 witness: the RNA `"AUGUUUUAA"` of the specification's example. -/
theorem rna_translation_spec_app :
    (RNASequence.mk "seq1" ['A', 'U', 'G', 'U', 'U', 'U', 'U', 'A', 'A']).transcribe
      = .ok ⟨"seq1" ++ "_protein", specMachine ['A', 'U', 'G', 'U', 'U', 'U', 'U', 'A', 'A']⟩
    ∧ List.lookup ['A', 'U', 'G'] codonTable = some 'M'
    ∧ translateLoop ['A', 'U', 'G', 'U', 'U', 'U', 'U', 'A', 'A'] = ['M', 'F'] :=
  rna_translation_spec ⟨"seq1", ['A', 'U', 'G', 'U', 'U', 'U', 'U', 'A', 'A']⟩ (by decide)

theorem translateStrict_eq :
    ∀ data : List Char, (∀ c ∈ data, c ∈ RNASequence.VALID_CHARS) →
      translateStrict data = some (translateLoop data)
  | [], _ => rfl
  | [c1], _ => rfl
  | [c1, c2], _ => rfl
  | c1 :: c2 :: c3 :: rest, h => by
      have h1 := h c1 (by simp)
      have h2 := h c2 (by simp)
      have h3 := h c3 (by simp)
      have hrest : ∀ c ∈ rest, c ∈ RNASequence.VALID_CHARS := fun c hc => h c (by simp [hc])
      have hg := codonTable_isSome c1 h1 c2 h2 c3 h3
      unfold translateStrict translateLoop
      cases hl : List.lookup [c1, c2, c3] codonTable with
      | none =>
          rw [hl] at hg
          simp at hg
      | some p =>
          by_cases hp : p = '*'
          · simp [hp]
          · simp only [if_neg hp]
            rw [translateStrict_eq rest hrest]
            rfl

/-- C9: the codon table is total over all triples of valid RNA symbols,
and on a validly-constructed RNA string the loop with the codon-not-found
fallback removed computes the same peptide string, so the placeholder
branch is unreachable there. -/
theorem codon_table_total :
    (∀ c1 ∈ RNASequence.VALID_CHARS, ∀ c2 ∈ RNASequence.VALID_CHARS,
      ∀ c3 ∈ RNASequence.VALID_CHARS,
        (List.lookup [c1, c2, c3] codonTable).isSome = true)
    ∧ (∀ data : List Char, (∀ c ∈ data, c ∈ RNASequence.VALID_CHARS) →
        translateStrict data = some (translateLoop data)) :=
  ⟨codonTable_isSome, translateStrict_eq⟩

/-! ## The ConsoleApplication5 variant -/

theorem ca5_translateLoop_replicate :
    ∀ data : List Char, CA5.translateLoop data = List.replicate (data.length / 3) 'X'
  | [] => by simp [CA5.translateLoop]
  | [c1] => by simp [CA5.translateLoop]
  | [c1, c2] => by simp [CA5.translateLoop]
  | c1 :: c2 :: c3 :: rest => by
      have ih := ca5_translateLoop_replicate rest
      show 'X' :: CA5.translateLoop rest
          = List.replicate ((c1 :: c2 :: c3 :: rest).length / 3) 'X'
      rw [ih]
      have hlen : (c1 :: c2 :: c3 :: rest).length = rest.length + 3 := by
        simp only [List.length_cons]
      rw [hlen, Nat.add_div_right _ (by norm_num), List.replicate_succ]

/-- C10: in the `ConsoleApplication5.cpp` variant, translation appends the
placeholder `X` for every complete codon; `X` is not a peptide letter, so
for a validly-constructed RNA of length at least 3 translation fails in
the protein constructor with the invalid-symbol error, while RNA of
length 0, 1 or 2 yields the empty peptide. -/
theorem ca5_translation_always_invalid (r : CA5.RNASequence)
    (h : ∀ c ∈ r.data, c ∈ RNASequence.VALID_CHARS) :
    'X' ∉ CA5.ProteinSequence.VALID_CHARS
    ∧ CA5.translateLoop r.data = List.replicate (r.data.length / 3) 'X'
    ∧ (3 ≤ r.data.length →
        r.transcribe = .error (.invalidArgument "Nieprawidłowy znak w sekwencji białka."))
    ∧ (r.data.length < 3 → r.transcribe = .ok ⟨r.identifier ++ "_protein", []⟩) := by
  have hchk : ∀ l : List Char,
      checkChars CA5.ProteinSequence.VALID_CHARS
          "Nieprawidłowy znak w sekwencji białka." ('X' :: l)
        = .error (.invalidArgument "Nieprawidłowy znak w sekwencji białka.") := by
    intro l
    unfold checkChars
    rw [if_neg (by decide)]
  refine ⟨by decide, ca5_translateLoop_replicate r.data, fun h3 => ?_, fun hlt => ?_⟩
  · obtain ⟨rid, rdata⟩ := r
    rcases rdata with _ | ⟨c1, _ | ⟨c2, _ | ⟨c3, rest⟩⟩⟩
    · simp at h3
    · simp at h3
    · simp at h3
    · unfold CA5.RNASequence.transcribe CA5.mkProteinSequence
      rw [show CA5.translateLoop (c1 :: c2 :: c3 :: rest)
            = 'X' :: CA5.translateLoop rest from rfl,
        hchk]
  · obtain ⟨rid, rdata⟩ := r
    rcases rdata with _ | ⟨c1, _ | ⟨c2, _ | ⟨c3, rest⟩⟩⟩
    · rfl
    · rfl
    · rfl
    · exfalso
      simp only [List.length_cons] at hlt
      omega

/-- C10 witness: the valid RNA `"AUG"` (one complete codon). -/
theorem ca5_translation_always_invalid_app :
    'X' ∉ CA5.ProteinSequence.VALID_CHARS
    ∧ CA5.translateLoop ['A', 'U', 'G']
      = List.replicate ((['A', 'U', 'G'] : List Char).length / 3) 'X'
    ∧ (3 ≤ (['A', 'U', 'G'] : List Char).length →
        (CA5.RNASequence.mk "rna" ['A', 'U', 'G']).transcribe
          = .error (.invalidArgument "Nieprawidłowy znak w sekwencji białka."))
    ∧ ((['A', 'U', 'G'] : List Char).length < 3 →
        (CA5.RNASequence.mk "rna" ['A', 'U', 'G']).transcribe
          = .ok ⟨"rna" ++ "_protein", []⟩) :=
  ca5_translation_always_invalid ⟨"rna", ['A', 'U', 'G']⟩ (by decide)
